import Mathlib

/-!
Verification of the docuum daemon (`src/main.rs` plus the spec of the
vacuum engine) against its natural-language specification.

The command-line layer (`settings`, `set_up_logging`, `main`) is embedded
directly from `src/main.rs`.  The modules `run.rs` and `state.rs` are not
part of the provided sources; the definitions that depend on them are
modelled from the specification and say so in their doc comments.

Machine floating-point values (`f64`) are modelled as rationals `ℚ`;
numeric string parsing from external libraries (`str::parse::<f64>`,
`byte_unit::Byte::from_str`) is modelled by executable parsers over plain
decimal literals, which is the fragment the program's constants and the
claims exercise.
-/

namespace Docuum

/-! ### External-library numeric parsing, modelled -/

/-- Numeric value of a list of decimal digit characters (most significant
first), as used by a decimal-literal parser. -/
def digitsVal (cs : List Char) : Nat :=
  cs.foldl (fun a c => a * 10 + (c.toNat - 48)) 0

/-- Models Rust `str::trim`: remove leading and trailing whitespace
characters. -/
def trimModel (s : String) : String :=
  ⟨((s.data.dropWhile Char.isWhitespace).reverse.dropWhile Char.isWhitespace).reverse⟩

/-- Models `str::parse::<f64>` on plain decimal literals (optional sign,
integer digits, optional fractional part), returning the exact rational
value.  Exotic float syntax (exponents, `inf`, `NaN`) is outside the
modelled fragment; no input used by the program or the claims needs it. -/
def parseDecimal (s : String) : Option ℚ :=
  let signed : Bool × List Char :=
    match s.data with
    | '-' :: rest => (true, rest)
    | '+' :: rest => (false, rest)
    | cs => (false, cs)
  let intPart := signed.2.takeWhile Char.isDigit
  let rest := signed.2.dropWhile Char.isDigit
  let val : Option ℚ :=
    match rest with
    | [] =>
      if intPart.isEmpty then none
      else some (digitsVal intPart : ℚ)
    | '.' :: frac =>
      if (intPart.isEmpty && frac.isEmpty) || !frac.all Char.isDigit then none
      else some ((digitsVal intPart : ℚ) + (digitsVal frac : ℚ) / (10 : ℚ) ^ frac.length)
    | _ => none
  val.map (fun v => if signed.1 then -v else v)

/-- ASCII upper-casing of a string, character by character (the
case-insensitive comparisons of the external libraries need no more). -/
def asciiUpper (s : String) : String :=
  ⟨s.data.map Char.toUpper⟩

/-- Byte multiplier for a size-unit suffix, as understood by
`byte_unit::Byte::from_str` (decimal and binary units, case-insensitive). -/
def unitMultiplier (u : String) : Option Nat :=
  match asciiUpper u with
  | "" => some 1
  | "B" => some 1
  | "K" => some 1000
  | "KB" => some 1000
  | "KIB" => some 1024
  | "M" => some 1000000
  | "MB" => some 1000000
  | "MIB" => some 1048576
  | "G" => some 1000000000
  | "GB" => some 1000000000
  | "GIB" => some 1073741824
  | "T" => some 1000000000000
  | "TB" => some 1000000000000
  | "TIB" => some 1099511627776
  | _ => none

/-- Models `byte_unit::Byte::from_str` on plain decimal inputs: a decimal
value, optional whitespace, and a unit suffix; the result is the value
multiplied by the unit, in bytes, rounded down, computed in exact integer
arithmetic. -/
def byteFromStr (s : String) : Option Nat :=
  let cs := (trimModel s).data
  let digitsPart := cs.takeWhile (fun c => c.isDigit || c == '.')
  let unit : String := trimModel ⟨cs.dropWhile (fun c => c.isDigit || c == '.')⟩
  let intPart := digitsPart.takeWhile Char.isDigit
  let rest := digitsPart.dropWhile Char.isDigit
  match unitMultiplier unit with
  | none => none
  | some m =>
    match rest with
    | [] => if intPart.isEmpty then none else some (digitsVal intPart * m)
    | '.' :: frac =>
      if (intPart.isEmpty && frac.isEmpty) || !frac.all Char.isDigit then none
      else some (digitsVal intPart * m + digitsVal frac * m / 10 ^ frac.length)
    | _ => none

/-! ### The `Threshold` type and command-line parsing (`src/main.rs`) -/

/-- `enum Threshold` from `src/main.rs`: size threshold argument, absolute
or relative to filesystem size.  The `f64` percentage is modelled as `ℚ`
and the `Byte` payload as its value in bytes. -/
inductive Threshold where
  | Absolute (bytes : Nat)
  | Percentage (fraction : ℚ)
deriving DecidableEq

/-- `DEFAULT_THRESHOLD` from `src/main.rs`. -/
def DEFAULT_THRESHOLD : String := "10 GB"

/-- The default threshold value built in `settings`:
`Threshold::Absolute(Byte::from_str(DEFAULT_THRESHOLD).unwrap())`.
The `unwrap` is modelled by `Option.getD`; the parse succeeds on the
constant. -/
def defaultThreshold : Threshold :=
  Threshold.Absolute ((byteFromStr DEFAULT_THRESHOLD).getD 0)

/-- Models Rust `str::strip_suffix('%')`: `some` of the string without its
last character when that character is `'%'`, otherwise `none`. -/
def stripPercentSuffix (s : String) : Option String :=
  match s.data.getLast? with
  | some '%' => some ⟨s.data.dropLast⟩
  | _ => none

/-- The threshold-argument branch of `settings` in `src/main.rs`: a value
with a `'%'` suffix is trimmed and parsed as a number and divided by 100
to make a `Percentage`; otherwise the value is parsed as an absolute byte
size. -/
def parseThresholdArg (t : String) : Except String Threshold :=
  match stripPercentSuffix t with
  | some pstr =>
    match parseDecimal (trimModel pstr) with
    | some f => Except.ok (Threshold.Percentage (f / 100))
    | none => Except.error ("Invalid relative threshold " ++ t ++ ".")
  | none =>
    match byteFromStr t with
    | some b => Except.ok (Threshold.Absolute b)
    | none => Except.error ("Invalid threshold " ++ t ++ ".")

/-- External collaborators of `settings` beyond numeric parsing:
`regexSetNew` models `regex::RegexSet::new` composed with `is_match`,
returning `none` on invalid regex syntax and otherwise the compiled
match predicate over a single name string. -/
structure Ext where
  regexSetNew : List String → Option (String → Bool)

/-- `struct Settings` from `src/main.rs`; the compiled `RegexSet` is
modelled as its match predicate. -/
structure Settings where
  threshold : Threshold
  keep : Option (String → Bool)

/-- The `map_or_else` over `matches.value_of(THRESHOLD_OPTION)` in
`fn settings`: the default threshold when the option is absent, otherwise
the parse of its value. -/
def thresholdChoice (thresholdOpt : Option String) : Except String Threshold :=
  match thresholdOpt with
  | none => Except.ok defaultThreshold
  | some t => parseThresholdArg t

/-- `fn settings` from `src/main.rs`: parse the command-line arguments.
`thresholdOpt` is `matches.value_of(THRESHOLD_OPTION)` and `keepValues`
is `matches.values_of(KEEP_OPTION)`. -/
def settings (ext : Ext) (thresholdOpt : Option String)
    (keepValues : Option (List String)) : Except String Settings :=
  match thresholdChoice thresholdOpt with
  | Except.error e => Except.error e
  | Except.ok th =>
    match keepValues with
    | some vs =>
      match ext.regexSetNew vs with
      | some set => Except.ok ⟨th, some set⟩
      | none => Except.error "invalid keep regex"
    | none => Except.ok ⟨th, none⟩

/-! ### Logging setup (`set_up_logging` in `src/main.rs`) -/

/-- `log::LevelFilter`. -/
inductive LevelFilter where
  | off
  | error
  | warn
  | info
  | debug
  | trace
deriving DecidableEq

/-- `DEFAULT_LOG_LEVEL` from `src/main.rs`. -/
def DEFAULT_LOG_LEVEL : LevelFilter := LevelFilter.debug

/-- `DEFAULT_LOG_LEVEL.to_string()`: the `Display` form of
`LevelFilter::Debug`. -/
def defaultLogLevelString : String := "DEBUG"

/-- Models `LevelFilter::from_str` from the `log` crate: case-insensitive
match against the level names, `none` otherwise. -/
def levelFilterFromStr (s : String) : Option LevelFilter :=
  match asciiUpper s with
  | "OFF" => some LevelFilter.off
  | "ERROR" => some LevelFilter.error
  | "WARN" => some LevelFilter.warn
  | "INFO" => some LevelFilter.info
  | "DEBUG" => some LevelFilter.debug
  | "TRACE" => some LevelFilter.trace
  | _ => none

/-- The level computation inside `set_up_logging` in `src/main.rs`:
`LevelFilter::from_str(&env::var("LOG_LEVEL").unwrap_or_else(|_|
DEFAULT_LOG_LEVEL.to_string())).unwrap_or(DEFAULT_LOG_LEVEL)`.
`logLevelVar` is the value of the `LOG_LEVEL` environment variable, when
set.  The function is total: no input raises an error. -/
def set_up_logging (logLevelVar : Option String) : LevelFilter :=
  (levelFilterFromStr (logLevelVar.getD defaultLogLevelString)).getD DEFAULT_LOG_LEVEL

/-! ### Persisted state and process startup (`main` in `src/main.rs`) -/

/-- Modelled from the spec: the `State` of `state.rs` (not in the provided
sources) — "a durable mapping from image identity (content-addressable
digest string, unique) to a LedgerEntry { imageId, lastUsedAt }",
represented as an association list from image id to last-used timestamp. -/
abbrev Ledger : Type := List (String × Nat)

/-- Modelled from the spec: `state::initial` of `state.rs` (not in the
provided sources) — the ledger "created empty". -/
def initialState : Ledger := []

/-- The observable result of the startup portion of `fn main` in
`src/main.rs` (after logging setup, before the supervisor loop):
either the process exited with a code after logging an error, or it is
running with the parsed settings, the state, the first-run flag, and a
record of whether a load warning was logged. -/
inductive StartOutcome where
  | exited (code : Nat) (loggedError : String)
  | running (s : Settings) (st : Ledger) (firstRun : Bool) (warnedLoad : Bool)

/-- The startup portion of `fn main` in `src/main.rs`: parse the
command-line arguments, exiting with code 1 on error; then load the state
from disk, downgrading any load failure to a warning plus the initial
state and `first_run = true`.  `loadRes` is the result of `state::load()`. -/
def mainStartup (ext : Ext) (thresholdOpt : Option String)
    (keepValues : Option (List String)) (loadRes : Except String Ledger) : StartOutcome :=
  match settings ext thresholdOpt keepValues with
  | Except.error e => StartOutcome.exited 1 e
  | Except.ok s =>
    match loadRes with
    | Except.error _ => StartOutcome.running s initialState true true
    | Except.ok st => StartOutcome.running s st false false

/-! ### The supervisor loop (`loop` in `fn main`, `src/main.rs`) -/

/-- The type of `run::run` (`run.rs`, not in the provided sources) as used
by `fn main`: it receives the settings and mutable references to the state
and the first-run flag; mutation is modelled by returning the new state
and flag next to the result. -/
abbrev RunFn : Type :=
  Settings → Ledger → Bool → Except String Unit × Ledger × Bool

/-- Observable side effects of one iteration of the supervisor loop:
whether an error was logged and how many seconds were slept. -/
structure IterEffects where
  loggedError : Option String
  sleptSeconds : Option Nat
deriving DecidableEq

/-- One iteration of the `loop` in `fn main` (`src/main.rs`): call `run`;
on `Err(e)` log the error and sleep 5 seconds; either way continue with
the state and flag left in memory by `run`. -/
def runIteration (runFn : RunFn) (s : Settings) (st : Ledger) (fr : Bool) :
    IterEffects × Ledger × Bool :=
  match runFn s st fr with
  | (Except.error e, st', fr') => (⟨some e, some 5⟩, st', fr')
  | (Except.ok _, st', fr') => (⟨none, none⟩, st', fr')

/-- Process status for the whole-program trace: exited with a code, or
running the supervisor loop with the current settings, state and
first-run flag. -/
inductive ProcStatus where
  | exited (code : Nat)
  | running (s : Settings) (st : Ledger) (firstRun : Bool)

/-- The whole-program trace of `fn main` in `src/main.rs`:
`processTrace … n` is the process status after startup and `n` iterations
of the supervisor loop.  An exit is absorbing; a running process steps by
one `runIteration`, carrying the in-memory state forward. -/
def processTrace (ext : Ext) (thresholdOpt : Option String)
    (keepValues : Option (List String)) (loadRes : Except String Ledger)
    (runFn : RunFn) : Nat → ProcStatus
  | 0 =>
    match mainStartup ext thresholdOpt keepValues loadRes with
    | StartOutcome.exited c _ => ProcStatus.exited c
    | StartOutcome.running s st fr _ => ProcStatus.running s st fr
  | n + 1 =>
    match processTrace ext thresholdOpt keepValues loadRes runFn n with
    | ProcStatus.exited c => ProcStatus.exited c
    | ProcStatus.running s st fr =>
      ProcStatus.running s (runIteration runFn s st fr).2.1 (runIteration runFn s st fr).2.2

/-! ### The vacuum engine, modelled from the spec (`run.rs` is not in the
provided sources; every definition in this section follows §4.5 of the
specification) -/

/-- Modelled from the spec: one image of the `EngineSnapshot` —
`{ imageId, sizeBytes, names: set of "repo:tag" strings, inUse }`. -/
structure Image where
  id : String
  sizeBytes : Nat
  names : List String
  inUse : Bool
deriving DecidableEq

/-- Look an image id up in the ledger. -/
def ledgerLookup (led : Ledger) (id : String) : Option Nat :=
  (led.find? (fun e => e.1 == id)).map (fun e => e.2)

/-- Remove an image id's entry from the ledger. -/
def ledgerRemove (led : Ledger) (id : String) : Ledger :=
  led.filter (fun e => e.1 != id)

/-- Modelled from the spec: the Keep-List Matcher — "true iff KeepSpec is
present and at least one configured pattern matches at least one of the
image's names"; the compiled pattern set is its match predicate. -/
def isProtected (keep : Option (String → Bool)) (names : List String) : Bool :=
  match keep with
  | none => false
  | some m => names.any m

/-- Modelled from the spec: the Threshold Resolver — "Absolute variant
returns its literal value.  Percentage variant returns
`round(fraction * filesystemCapacityBytes)`". -/
def resolveThreshold : Threshold → Nat → Int
  | Threshold.Absolute b, _ => (b : Int)
  | Threshold.Percentage f, capacity => round (f * (capacity : ℚ))

/-- Total size of a snapshot: the sum of the images' sizes (spec §4.5
step 4). -/
def totalSize (snapshot : List Image) : Nat :=
  (snapshot.map Image.sizeBytes).sum

/-- Modelled from the spec: first-run seeding (§4.5 step 2) — "for every
image in the snapshot with no ledger entry, seed a LedgerEntry with
lastUsedAt = now". -/
def seed (now : Nat) (snapshot : List Image) (led : Ledger) : Ledger :=
  snapshot.foldl
    (fun l i => if (ledgerLookup l i.id).isSome then l else (i.id, now) :: l) led

/-- Modelled from the spec: ledger pruning (§4.5 step 3) — "remove entries
whose imageId is absent from the snapshot". -/
def prune (snapshot : List Image) (led : Ledger) : Ledger :=
  led.filter (fun e => snapshot.any (fun i => i.id == e.1))

/-- The ledger after the seeding and pruning steps of a pass (spec §4.5
steps 2–3). -/
def passLedger (firstRun : Bool) (now : Nat) (snapshot : List Image) (led : Ledger) : Ledger :=
  prune snapshot (if firstRun then seed now snapshot led else led)

/-- Comparison of sort keys for victim ordering (spec §4.5 step 8):
`lastUsedAt` ascending, with images lacking a ledger entry (`none`)
sorting as oldest. -/
def keyLeB : Option Nat → Option Nat → Bool
  | none, _ => true
  | some _, none => false
  | some a, some b => decide (a ≤ b)

/-- The sort key of an image: its ledger entry's `lastUsedAt`, when
present. -/
def keyOf (led : Ledger) (i : Image) : Option Nat :=
  ledgerLookup led i.id

/-- The victim ordering relation on images induced by a ledger. -/
def victimOrder (led : Ledger) (a b : Image) : Prop :=
  keyLeB (keyOf led a) (keyOf led b) = true

instance victimOrderDecidable (led : Ledger) : DecidableRel (victimOrder led) :=
  fun a b => inferInstanceAs (Decidable (keyLeB (keyOf led a) (keyOf led b) = true))

/-- Modelled from the spec: candidate construction and ordering (§4.5
steps 7–8) — "snapshot images where `inUse == false` AND
`isProtected(names) == false`", ordered "by lastUsedAt ascending (oldest
first)" with untracked images sorting as oldest. -/
def sortedCandidates (keep : Option (String → Bool)) (snapshot : List Image)
    (led : Ledger) : List Image :=
  List.insertionSort (victimOrder led)
    (snapshot.filter (fun i => !i.inUse && !isProtected keep i.names))

/-- The result of a vacuum pass: the victims successfully deleted (in
deletion order), the remaining total, and the final ledger. -/
structure PassResult where
  deleted : List Image
  total : Nat
  ledger : Ledger
deriving DecidableEq

/-- Modelled from the spec: the deletion loop of a pass (§4.5 steps
9–10) — iterate the ordered victims; stop as soon as the total is at or
below the limit or candidates are exhausted; on successful deletion
subtract the size and drop the ledger entry; on failure (`delOk` false)
skip to the next candidate. -/
def deleteLoop (delOk : String → Bool) (limit : Int) :
    List Image → Nat → Ledger → PassResult
  | [], total, led => ⟨[], total, led⟩
  | i :: rest, total, led =>
    if (total : Int) ≤ limit then ⟨[], total, led⟩
    else if delOk i.id then
      let r := deleteLoop delOk limit rest (total - i.sizeBytes) (ledgerRemove led i.id)
      ⟨i :: r.deleted, r.total, r.ledger⟩
    else deleteLoop delOk limit rest total led

/-- Modelled from the spec: one vacuum pass (§4.5) — seed on first run,
prune, compute the total and the resolved limit; when the total is at or
below the limit do nothing, otherwise run the deletion loop over the
ordered candidates.  `delOk` tells whether the engine's deletion of a
given image id succeeds. -/
def vacuumPass (delOk : String → Bool) (keep : Option (String → Bool))
    (th : Threshold) (capacity now : Nat) (firstRun : Bool)
    (snapshot : List Image) (led : Ledger) : PassResult :=
  if (totalSize snapshot : Int) ≤ resolveThreshold th capacity then
    ⟨[], totalSize snapshot, passLedger firstRun now snapshot led⟩
  else
    deleteLoop delOk (resolveThreshold th capacity)
      (sortedCandidates keep snapshot (passLedger firstRun now snapshot led))
      (totalSize snapshot) (passLedger firstRun now snapshot led)

/-! ### Concrete instantiations used to evaluate closed statements -/

/-- An external-library instantiation in which every pattern list compiles
to a predicate matching nothing. -/
def extOk : Ext := ⟨fun _ => some (fun _ => false)⟩

/-- An external-library instantiation in which regex compilation always
fails. -/
def extBadRegex : Ext := ⟨fun _ => none⟩

/-- A `run` that always fails with a fixed engine error, leaving state and
flag untouched. -/
def runAlwaysErr : RunFn := fun _ st fr => (Except.error "event stream broken", st, fr)

/-- A concrete snapshot: three unused, unprotected images of sizes
600/600/200 and one in-use image of size 500 that is globally oldest. -/
def snapW : List Image :=
  [⟨"a", 600, [], false⟩, ⟨"b", 600, [], false⟩, ⟨"c", 200, [], false⟩,
   ⟨"d", 500, ["keepme:latest"], true⟩]

/-- A concrete ledger for `snapW`: the in-use image is the oldest. -/
def ledW : Ledger := [("a", 100), ("b", 200), ("c", 300), ("d", 50)]

/-! ### Lemmas about the victim ordering -/

theorem keyLeB_total (x y : Option Nat) : keyLeB x y = true ∨ keyLeB y x = true := by
  rcases x with _ | a
  · exact Or.inl rfl
  · rcases y with _ | b
    · exact Or.inr rfl
    · simp only [keyLeB, decide_eq_true_eq]
      omega

theorem keyLeB_trans {x y z : Option Nat} (h1 : keyLeB x y = true)
    (h2 : keyLeB y z = true) : keyLeB x z = true := by
  rcases x with _ | a
  · rfl
  · rcases y with _ | b
    · exact absurd h1 (by simp [keyLeB])
    · rcases z with _ | c
      · exact absurd h2 (by simp [keyLeB])
      · simp only [keyLeB, decide_eq_true_eq] at h1 h2 ⊢
        omega

instance victimOrderTotal (led : Ledger) : IsTotal Image (victimOrder led) :=
  ⟨fun a b => keyLeB_total (keyOf led a) (keyOf led b)⟩

instance victimOrderTrans (led : Ledger) : IsTrans Image (victimOrder led) :=
  ⟨fun _ _ _ h1 h2 => keyLeB_trans h1 h2⟩

theorem sortedCandidates_sorted (keep : Option (String → Bool))
    (snapshot : List Image) (led : Ledger) :
    List.Sorted (victimOrder led) (sortedCandidates keep snapshot led) :=
  List.sorted_insertionSort (victimOrder led) _

theorem sortedCandidates_perm (keep : Option (String → Bool))
    (snapshot : List Image) (led : Ledger) :
    List.Perm (sortedCandidates keep snapshot led)
      (snapshot.filter (fun i => !i.inUse && !isProtected keep i.names)) :=
  List.perm_insertionSort (victimOrder led) _

/-! ### Lemmas about the deletion loop -/

theorem deleteLoop_nil (delOk : String → Bool) (limit : Int) (total : Nat) (led : Ledger) :
    deleteLoop delOk limit [] total led = ⟨[], total, led⟩ := rfl

theorem deleteLoop_cons_stop (delOk : String → Bool) (limit : Int) (i : Image)
    (rest : List Image) (total : Nat) (led : Ledger) (h : (total : Int) ≤ limit) :
    deleteLoop delOk limit (i :: rest) total led = ⟨[], total, led⟩ := by
  simp only [deleteLoop, if_pos h]

theorem deleteLoop_cons_del (delOk : String → Bool) (limit : Int) (i : Image)
    (rest : List Image) (total : Nat) (led : Ledger)
    (h : ¬ (total : Int) ≤ limit) (hdel : delOk i.id = true) :
    deleteLoop delOk limit (i :: rest) total led =
      ⟨i :: (deleteLoop delOk limit rest (total - i.sizeBytes) (ledgerRemove led i.id)).deleted,
       (deleteLoop delOk limit rest (total - i.sizeBytes) (ledgerRemove led i.id)).total,
       (deleteLoop delOk limit rest (total - i.sizeBytes) (ledgerRemove led i.id)).ledger⟩ := by
  simp only [deleteLoop, if_neg h, if_pos hdel]

theorem deleteLoop_cons_skip (delOk : String → Bool) (limit : Int) (i : Image)
    (rest : List Image) (total : Nat) (led : Ledger)
    (h : ¬ (total : Int) ≤ limit) (hdel : ¬ delOk i.id = true) :
    deleteLoop delOk limit (i :: rest) total led =
      deleteLoop delOk limit rest total led := by
  simp only [deleteLoop, if_neg h, if_neg hdel]

theorem deleteLoop_deleted_sublist (delOk : String → Bool) (limit : Int) :
    ∀ (l : List Image) (total : Nat) (led : Ledger),
      List.Sublist (deleteLoop delOk limit l total led).deleted l := by
  intro l
  induction l with
  | nil => intro total led; simp [deleteLoop_nil]
  | cons i rest ih =>
    intro total led
    by_cases hle : (total : Int) ≤ limit
    · rw [deleteLoop_cons_stop _ _ _ _ _ _ hle]
      exact List.nil_sublist _
    · by_cases hdel : delOk i.id = true
      · rw [deleteLoop_cons_del _ _ _ _ _ _ hle hdel]
        exact List.Sublist.cons₂ i (ih _ _)
      · rw [deleteLoop_cons_skip _ _ _ _ _ _ hle hdel]
        exact List.Sublist.cons i (ih _ _)

theorem deleteLoop_minimal (delOk : String → Bool) (limit : Int) :
    ∀ (l : List Image) (total : Nat) (led : Ledger) (k : Nat),
      k < (deleteLoop delOk limit l total led).deleted.length →
      limit < (((total - totalSize ((deleteLoop delOk limit l total led).deleted.take k)) : Nat) : Int) := by
  intro l
  induction l with
  | nil => intro total led k hk; simp [deleteLoop_nil] at hk
  | cons i rest ih =>
    intro total led k hk
    by_cases hle : (total : Int) ≤ limit
    · rw [deleteLoop_cons_stop _ _ _ _ _ _ hle] at hk
      simp at hk
    · by_cases hdel : delOk i.id = true
      · rw [deleteLoop_cons_del _ _ _ _ _ _ hle hdel] at hk ⊢
        simp only [List.length_cons] at hk
        match k with
        | 0 =>
          simp only [List.take_zero, totalSize, List.map_nil, List.sum_nil, Nat.sub_zero]
          exact not_le.mp hle
        | k' + 1 =>
          simp only [List.take_succ_cons, totalSize, List.map_cons, List.sum_cons]
          have h := ih (total - i.sizeBytes) (ledgerRemove led i.id) k' (Nat.lt_of_succ_lt_succ hk)
          simp only [totalSize] at h
          rw [← Nat.sub_sub]
          exact h
      · rw [deleteLoop_cons_skip _ _ _ _ _ _ hle hdel] at hk ⊢
        exact ih total led k hk

theorem deleteLoop_exhaust (delOk : String → Bool) (limit : Int) :
    ∀ (l : List Image) (total : Nat) (led : Ledger),
      limit < ((deleteLoop delOk limit l total led).total : Int) →
      ∀ i ∈ l, i ∈ (deleteLoop delOk limit l total led).deleted ∨ delOk i.id = false := by
  intro l
  induction l with
  | nil => intro total led _ i hi; simp at hi
  | cons j rest ih =>
    intro total led hover i hi
    by_cases hle : (total : Int) ≤ limit
    · rw [deleteLoop_cons_stop _ _ _ _ _ _ hle] at hover
      exact absurd hle (not_le.mpr hover)
    · by_cases hdel : delOk j.id = true
      · rw [deleteLoop_cons_del _ _ _ _ _ _ hle hdel] at hover ⊢
        rcases List.mem_cons.mp hi with rfl | hmem
        · exact Or.inl (List.mem_cons_self _ _)
        · rcases ih (total - j.sizeBytes) (ledgerRemove led j.id) hover i hmem with h | h
          · exact Or.inl (List.mem_cons_of_mem _ h)
          · exact Or.inr h
      · rw [deleteLoop_cons_skip _ _ _ _ _ _ hle hdel] at hover ⊢
        rcases List.mem_cons.mp hi with rfl | hmem
        · exact Or.inr (by simpa using hdel)
        · exact ih total led hover i hmem

/-! ### Evaluation lemmas for concrete inputs -/

theorem defaultThreshold_eval : defaultThreshold = Threshold.Absolute 10000000000 := by
  decide

theorem settings_default_eval :
    settings extOk none none = Except.ok ⟨Threshold.Absolute 10000000000, none⟩ := by
  have h : settings extOk none none = Except.ok ⟨defaultThreshold, none⟩ := rfl
  rw [h, defaultThreshold_eval]

/-! ### The claims -/

/-- C5: for every `--threshold` argument of the form `p%` where `p` parses
as a number, the parsed threshold is `Percentage (p / 100)`; in particular
`"80%"` yields the fraction `0.80` (= 4/5) of filesystem capacity, and a
value without the `'%'` suffix is parsed as an absolute byte size. -/
theorem c5_percentage_parse :
    (∀ (t ps : String) (p : ℚ), stripPercentSuffix t = some ps →
        parseDecimal (trimModel ps) = some p →
        parseThresholdArg t = Except.ok (Threshold.Percentage (p / 100))) ∧
    parseThresholdArg "80%" = Except.ok (Threshold.Percentage (4 / 5)) ∧
    (∀ (t : String) (b : Nat), stripPercentSuffix t = none →
        byteFromStr t = some b →
        parseThresholdArg t = Except.ok (Threshold.Absolute b)) := by
  refine ⟨?_, ?_, ?_⟩
  · intro t ps p h1 h2
    simp only [parseThresholdArg, h1, h2]
  · have h1 : stripPercentSuffix "80%" = some "80" := by decide
    have h2 : parseDecimal (trimModel "80") = some 80 := by decide
    simp only [parseThresholdArg, h1, h2]
    norm_num
  · intro t b h1 h2
    simp only [parseThresholdArg, h1, h2]

/-- C5 witness: the theorem applied to the concrete arguments `"80%"` and
`"10 GB"`. -/
theorem c5_percentage_parse_witness :
    parseThresholdArg "80%" = Except.ok (Threshold.Percentage ((80 : ℚ) / 100)) ∧
    parseThresholdArg "10 GB" = Except.ok (Threshold.Absolute 10000000000) :=
  ⟨c5_percentage_parse.1 "80%" "80" 80 (by decide) (by decide),
   c5_percentage_parse.2.2 "10 GB" 10000000000 (by decide) (by decide)⟩

/-- C6 counterexample: the command-line parse of `--threshold "200%"`
produces `Percentage 2`, whose fraction is not in `[0, 1]` — the code
performs no range validation on percentages. -/
theorem c6_counterexample :
    settings extOk (some "200%") none = Except.ok ⟨Threshold.Percentage 2, none⟩ ∧
    ¬ ((2 : ℚ) ≤ 1) := by
  constructor
  · have h1 : stripPercentSuffix "200%" = some "200" := by decide
    have h2 : parseDecimal (trimModel "200") = some 200 := by decide
    have h : parseThresholdArg "200%" = Except.ok (Threshold.Percentage 2) := by
      simp only [parseThresholdArg, h1, h2]
      norm_num
    simp only [settings, thresholdChoice, h]
  · norm_num

/-- C6 (amended): every `Threshold::Percentage` produced by command-line
parsing carries the fraction `p / 100` for the parsed number `p`, with no
range validation; the fraction lies in `[0, 1]` exactly when `p` lies in
`[0, 100]`. -/
theorem c6_percentage_fraction (t ps : String) (p : ℚ)
    (h1 : stripPercentSuffix t = some ps)
    (h2 : parseDecimal (trimModel ps) = some p) :
    parseThresholdArg t = Except.ok (Threshold.Percentage (p / 100)) ∧
    (0 ≤ p / 100 ∧ p / 100 ≤ 1 ↔ 0 ≤ p ∧ p ≤ 100) := by
  constructor
  · simp only [parseThresholdArg, h1, h2]
  · have h100 : (0 : ℚ) < 100 := by norm_num
    rw [le_div_iff₀ h100, zero_mul, div_le_one h100]

/-- C6 witness: the amended theorem applied to `"200%"`. -/
theorem c6_percentage_fraction_witness :
    parseThresholdArg "200%" = Except.ok (Threshold.Percentage ((200 : ℚ) / 100)) ∧
    (0 ≤ (200 : ℚ) / 100 ∧ (200 : ℚ) / 100 ≤ 1 ↔ 0 ≤ (200 : ℚ) ∧ (200 : ℚ) ≤ 100) :=
  c6_percentage_fraction "200%" "200" 200 (by decide) (by decide)

/-- C8: for every invocation that omits the `--threshold` option (and
whose remaining arguments parse), the effective threshold is the absolute
size 10 GB, i.e. 10000000000 bytes. -/
theorem c8_default_threshold (ext : Ext) (keepValues : Option (List String))
    (s : Settings) (h : settings ext none keepValues = Except.ok s) :
    s.threshold = Threshold.Absolute 10000000000 := by
  rcases keepValues with _ | vs
  · simp only [settings, thresholdChoice] at h
    cases h
    exact defaultThreshold_eval
  · simp only [settings, thresholdChoice] at h
    rcases hr : ext.regexSetNew vs with _ | set
    · rw [hr] at h
      cases h
    · rw [hr] at h
      cases h
      exact defaultThreshold_eval

/-- C8 witness: the theorem applied to a concrete invocation with no
options at all. -/
theorem c8_default_threshold_witness :
    settings extOk none none = Except.ok ⟨Threshold.Absolute 10000000000, none⟩ ∧
    (⟨Threshold.Absolute 10000000000, none⟩ : Settings).threshold =
      Threshold.Absolute 10000000000 :=
  ⟨settings_default_eval, c8_default_threshold extOk none _ settings_default_eval⟩

/-- C9: when the `LOG_LEVEL` environment variable is unset or does not
parse as a log level, logging is configured at the default level
(`Debug`); `set_up_logging` is a total function, so no such input raises
an error or terminates the process. -/
theorem c9_log_level_fallback :
    set_up_logging none = LevelFilter.debug ∧
    ∀ s : String, levelFilterFromStr s = none →
      set_up_logging (some s) = LevelFilter.debug := by
  constructor
  · decide
  · intro s hs
    simp [set_up_logging, hs, DEFAULT_LOG_LEVEL]

/-- C9 witness: the theorem applied to the unparsable value `"bogus"`. -/
theorem c9_log_level_fallback_witness :
    levelFilterFromStr "bogus" = none ∧
    set_up_logging (some "bogus") = LevelFilter.debug :=
  ⟨by decide, c9_log_level_fallback.2 "bogus" (by decide)⟩

/-- C2: every invocation whose `--threshold` value is neither a valid
percentage (bad number before `'%'`) nor a valid byte size, or whose
`--keep` values fail regex compilation, makes startup log an error and
exit with code 1; the exit is absorbing for the whole process trace, so
there is no retry. -/
theorem c2_config_error_exits (ext : Ext) (keepValues : Option (List String))
    (loadRes : Except String Ledger) (runFn : RunFn) :
    (∀ (t ps : String), stripPercentSuffix t = some ps →
        parseDecimal (trimModel ps) = none →
        ∃ msg, mainStartup ext (some t) keepValues loadRes = StartOutcome.exited 1 msg) ∧
    (∀ t : String, stripPercentSuffix t = none → byteFromStr t = none →
        ∃ msg, mainStartup ext (some t) keepValues loadRes = StartOutcome.exited 1 msg) ∧
    (∀ (thresholdOpt : Option String) (vs : List String), ext.regexSetNew vs = none →
        ∃ msg, mainStartup ext thresholdOpt (some vs) loadRes = StartOutcome.exited 1 msg) ∧
    (∀ (thresholdOpt : Option String) (kv : Option (List String)) (c : Nat) (msg : String),
        mainStartup ext thresholdOpt kv loadRes = StartOutcome.exited c msg →
        ∀ n, processTrace ext thresholdOpt kv loadRes runFn n = ProcStatus.exited c) := by
  refine ⟨?_, ?_, ?_, ?_⟩
  · intro t ps h1 h2
    refine ⟨"Invalid relative threshold " ++ t ++ ".", ?_⟩
    simp only [mainStartup, settings, thresholdChoice, parseThresholdArg, h1, h2]
  · intro t h1 h2
    refine ⟨"Invalid threshold " ++ t ++ ".", ?_⟩
    simp only [mainStartup, settings, thresholdChoice, parseThresholdArg, h1, h2]
  · intro thresholdOpt vs hr
    rcases hth : thresholdChoice thresholdOpt with e | th
    · exact ⟨e, by simp only [mainStartup, settings, hth]⟩
    · exact ⟨"invalid keep regex", by simp only [mainStartup, settings, hth, hr]⟩
  · intro thresholdOpt kv c msg h n
    induction n with
    | zero => simp only [processTrace, h]
    | succ n ih => simp only [processTrace, ih]

/-- C2 witness: the theorem applied to the malformed threshold values
`"5x%"` and `"abc"`, a failing regex compilation, and the resulting
absorbing exit. -/
theorem c2_config_error_exits_witness :
    (∃ msg, mainStartup extBadRegex (some "5x%") none (Except.ok []) =
        StartOutcome.exited 1 msg) ∧
    (∃ msg, mainStartup extBadRegex (some "abc") none (Except.ok []) =
        StartOutcome.exited 1 msg) ∧
    (∃ msg, mainStartup extBadRegex none (some ["("]) (Except.ok []) =
        StartOutcome.exited 1 msg) ∧
    processTrace extBadRegex none (some ["("]) (Except.ok []) runAlwaysErr 2 =
      ProcStatus.exited 1 := by
  have h := c2_config_error_exits extBadRegex none (Except.ok []) runAlwaysErr
  refine ⟨h.1 "5x%" "5x" (by decide) (by decide),
          h.2.1 "abc" (by decide) (by decide),
          h.2.2.1 none ["("] rfl, ?_⟩
  rcases h.2.2.1 none ["("] rfl with ⟨msg, hm⟩
  exact h.2.2.2 none (some ["("]) 1 msg hm 2

/-- C3: when loading the persisted state fails (for any load error), the
process logs a warning, continues with the initial — empty — state and
`first_run = true`, and does not terminate. -/
theorem c3_load_failure_recovered (ext : Ext) (thresholdOpt : Option String)
    (keepValues : Option (List String)) (s : Settings) (err : String)
    (h : settings ext thresholdOpt keepValues = Except.ok s) :
    mainStartup ext thresholdOpt keepValues (Except.error err) =
      StartOutcome.running s initialState true true ∧
    initialState = [] := by
  constructor
  · simp only [mainStartup, h]
  · rfl

/-- C3 witness: the theorem applied to a concrete failing load. -/
theorem c3_load_failure_recovered_witness :
    mainStartup extOk none none (Except.error "corrupt state file") =
      StartOutcome.running ⟨Threshold.Absolute 10000000000, none⟩ initialState true true ∧
    initialState = [] :=
  c3_load_failure_recovered extOk none none _ "corrupt state file" settings_default_eval

/-- C10: at process start, `first_run` is true if and only if loading the
persisted state failed: a failing load yields the initial state with
`first_run = true`, and a successful load yields the loaded state with
`first_run = false` immediately. -/
theorem c10_firstRun_iff_load_failed (ext : Ext) (thresholdOpt : Option String)
    (keepValues : Option (List String)) (s : Settings)
    (h : settings ext thresholdOpt keepValues = Except.ok s) :
    (∀ err : String, mainStartup ext thresholdOpt keepValues (Except.error err) =
        StartOutcome.running s initialState true true) ∧
    (∀ st : Ledger, mainStartup ext thresholdOpt keepValues (Except.ok st) =
        StartOutcome.running s st false false) := by
  constructor
  · intro err
    simp only [mainStartup, h]
  · intro st
    simp only [mainStartup, h]

/-- C10 witness: the theorem applied to one failing and one succeeding
load. -/
theorem c10_firstRun_iff_load_failed_witness :
    mainStartup extOk none none (Except.error "missing") =
      StartOutcome.running ⟨Threshold.Absolute 10000000000, none⟩ initialState true true ∧
    mainStartup extOk none none (Except.ok [("sha256:aaa", 7)]) =
      StartOutcome.running ⟨Threshold.Absolute 10000000000, none⟩ [("sha256:aaa", 7)] false false :=
  ⟨(c10_firstRun_iff_load_failed extOk none none _ settings_default_eval).1 "missing",
   (c10_firstRun_iff_load_failed extOk none none _ settings_default_eval).2 [("sha256:aaa", 7)]⟩

/-- C4: when `run` surfaces an error, the supervisor iteration logs the
error, sleeps exactly 5 seconds, and the next iteration of the process
trace runs with exactly the in-memory state and first-run flag `run` left
behind — they are not reloaded from disk and not reset. -/
theorem c4_supervisor_retry (runFn : RunFn) (s : Settings) (st : Ledger) (fr : Bool)
    (e : String) (st' : Ledger) (fr' : Bool)
    (h : runFn s st fr = (Except.error e, st', fr')) :
    runIteration runFn s st fr = (⟨some e, some 5⟩, st', fr') ∧
    ∀ (ext : Ext) (thresholdOpt : Option String) (keepValues : Option (List String))
      (loadRes : Except String Ledger) (n : Nat),
      processTrace ext thresholdOpt keepValues loadRes runFn n = ProcStatus.running s st fr →
      processTrace ext thresholdOpt keepValues loadRes runFn (n + 1) =
        ProcStatus.running s st' fr' := by
  have hit : runIteration runFn s st fr = (⟨some e, some 5⟩, st', fr') := by
    simp only [runIteration, h]
  refine ⟨hit, ?_⟩
  intro ext thresholdOpt keepValues loadRes n htr
  simp only [processTrace, htr, hit]

/-- C4 witness: the theorem applied to an always-failing `run` at the
first supervisor iteration. -/
theorem c4_supervisor_retry_witness :
    runIteration runAlwaysErr ⟨defaultThreshold, none⟩ [("sha256:aaa", 7)] true =
      (⟨some "event stream broken", some 5⟩, [("sha256:aaa", 7)], true) ∧
    processTrace extOk none none (Except.error "no state") runAlwaysErr 1 =
      ProcStatus.running ⟨defaultThreshold, none⟩ initialState true := by
  have h := c4_supervisor_retry runAlwaysErr ⟨defaultThreshold, none⟩ [("sha256:aaa", 7)] true
    "event stream broken" [("sha256:aaa", 7)] true rfl
  have h0 := c4_supervisor_retry runAlwaysErr ⟨defaultThreshold, none⟩ initialState true
    "event stream broken" initialState true rfl
  exact ⟨h.1, h0.2 extOk none none (Except.error "no state") 0 rfl⟩

/-- C7: once configuration parsing has succeeded, the process never exits
on its own — after any number of supervisor iterations, and whatever
`run` does, the process status is still `running`. -/
theorem c7_never_exits (ext : Ext) (thresholdOpt : Option String)
    (keepValues : Option (List String)) (loadRes : Except String Ledger)
    (runFn : RunFn) (s : Settings)
    (h : settings ext thresholdOpt keepValues = Except.ok s) :
    ∀ n, ∃ s2 st fr,
      processTrace ext thresholdOpt keepValues loadRes runFn n = ProcStatus.running s2 st fr := by
  intro n
  induction n with
  | zero =>
    rcases loadRes with err | st
    · exact ⟨s, initialState, true, by simp only [processTrace, mainStartup, h]⟩
    · exact ⟨s, st, false, by simp only [processTrace, mainStartup, h]⟩
  | succ n ih =>
    rcases ih with ⟨s2, st, fr, heq⟩
    exact ⟨s2, (runIteration runFn s2 st fr).2.1, (runIteration runFn s2 st fr).2.2,
      by simp only [processTrace, heq]⟩

/-- C7 witness: the theorem applied to a concrete invocation with an
always-failing `run` after three iterations. -/
theorem c7_never_exits_witness :
    ∃ s2 st fr, processTrace extOk none none (Except.ok []) runAlwaysErr 3 =
      ProcStatus.running s2 st fr :=
  c7_never_exits extOk none none (Except.ok []) runAlwaysErr _ settings_default_eval 3

/-- C1: in every vacuum pass whose snapshot total exceeds the resolved
limit, (1) every deleted victim was not in use and not protected by the
keep patterns — so an in-use or protected image is never selected, even
when it is the globally oldest; (2) victims are deleted in non-decreasing
`lastUsedAt` order (untracked images sorting as oldest); (3) each deletion
happens only while the running total still exceeds the limit, i.e. the
pass stops as soon as the total is at or below the limit; and (4) if the
pass ends with the total still above the limit, then every unprotected,
not-in-use snapshot image was either deleted or failed deletion — the
candidates were exhausted, and the limit may consequently never be
reached. -/
theorem c1_vacuum_lru (delOk : String → Bool) (keep : Option (String → Bool))
    (th : Threshold) (capacity now : Nat) (firstRun : Bool)
    (snapshot : List Image) (led : Ledger)
    (h : resolveThreshold th capacity < (totalSize snapshot : Int)) :
    (∀ i ∈ (vacuumPass delOk keep th capacity now firstRun snapshot led).deleted,
        i.inUse = false ∧ isProtected keep i.names = false) ∧
    List.Pairwise (victimOrder (passLedger firstRun now snapshot led))
      (vacuumPass delOk keep th capacity now firstRun snapshot led).deleted ∧
    (∀ k, k < (vacuumPass delOk keep th capacity now firstRun snapshot led).deleted.length →
        resolveThreshold th capacity <
          (((totalSize snapshot -
              totalSize ((vacuumPass delOk keep th capacity now firstRun snapshot led).deleted.take k)) : Nat) : Int)) ∧
    (resolveThreshold th capacity <
        ((vacuumPass delOk keep th capacity now firstRun snapshot led).total : Int) →
      ∀ i ∈ snapshot, i.inUse = false → isProtected keep i.names = false →
        i ∈ (vacuumPass delOk keep th capacity now firstRun snapshot led).deleted ∨
          delOk i.id = false) := by
  have hv : vacuumPass delOk keep th capacity now firstRun snapshot led =
      deleteLoop delOk (resolveThreshold th capacity)
        (sortedCandidates keep snapshot (passLedger firstRun now snapshot led))
        (totalSize snapshot) (passLedger firstRun now snapshot led) := by
    simp only [vacuumPass, if_neg (not_le.mpr h)]
  have hsub := deleteLoop_deleted_sublist delOk (resolveThreshold th capacity)
      (sortedCandidates keep snapshot (passLedger firstRun now snapshot led))
      (totalSize snapshot) (passLedger firstRun now snapshot led)
  refine ⟨?_, ?_, ?_, ?_⟩
  · intro i hi
    rw [hv] at hi
    have hmem : i ∈ sortedCandidates keep snapshot (passLedger firstRun now snapshot led) :=
      hsub.subset hi
    have hmem2 := (sortedCandidates_perm keep snapshot _).mem_iff.mp hmem
    rcases List.mem_filter.mp hmem2 with ⟨_, hp⟩
    simp only [Bool.and_eq_true, Bool.not_eq_true'] at hp
    exact hp
  · rw [hv]
    exact List.Pairwise.sublist hsub (sortedCandidates_sorted keep snapshot _)
  · intro k hk
    rw [hv] at hk ⊢
    exact deleteLoop_minimal delOk _ _ _ _ k hk
  · intro hover i hi hiu hip
    rw [hv] at hover ⊢
    refine deleteLoop_exhaust delOk _ _ _ _ hover i ?_
    refine (sortedCandidates_perm keep snapshot _).mem_iff.mpr ?_
    refine List.mem_filter.mpr ⟨hi, ?_⟩
    simp [hiu, hip]

/-- C1 witness: the theorem applied to a concrete over-limit pass -
absolute limit 1000 against a 1900-byte snapshot whose globally oldest
image is in use; the deletions, their order, their minimality and the
candidate exclusions all evaluate. -/
theorem c1_vacuum_lru_witness :
    (∀ i ∈ (vacuumPass (fun _ => true) none (Threshold.Absolute 1000) 0 0 false snapW ledW).deleted,
        i.inUse = false ∧ isProtected none i.names = false) ∧
    List.Pairwise (victimOrder (passLedger false 0 snapW ledW))
      (vacuumPass (fun _ => true) none (Threshold.Absolute 1000) 0 0 false snapW ledW).deleted ∧
    (∀ k, k < (vacuumPass (fun _ => true) none (Threshold.Absolute 1000) 0 0 false snapW ledW).deleted.length →
        resolveThreshold (Threshold.Absolute 1000) 0 <
          (((totalSize snapW -
              totalSize ((vacuumPass (fun _ => true) none (Threshold.Absolute 1000) 0 0 false snapW ledW).deleted.take k)) : Nat) : Int)) ∧
    (resolveThreshold (Threshold.Absolute 1000) 0 <
        ((vacuumPass (fun _ => true) none (Threshold.Absolute 1000) 0 0 false snapW ledW).total : Int) →
      ∀ i ∈ snapW, i.inUse = false → isProtected none i.names = false →
        i ∈ (vacuumPass (fun _ => true) none (Threshold.Absolute 1000) 0 0 false snapW ledW).deleted ∨
          (fun _ => true) i.id = false) :=
  c1_vacuum_lru (fun _ => true) none (Threshold.Absolute 1000) 0 0 false snapW ledW (by decide)

end Docuum
